import Mathlib

/-!
Shallow embedding of the JACA-Lib admin console's storage layer.

The application persists every logical collection (users, roles,
associations, the music-database registry, per-library record files) as a
JSON file in a remote blob store, read and rewritten wholesale on each
mutation.  We model the remote store as a partial map from path strings to
typed file contents, and each handler from `src/components/Dashboard.tsx`,
`src/App.tsx` and the Dropbox client as an explicit state-passing function
on that map.  React component state (the in-memory lists the handlers read)
is passed explicitly as arguments and returned as results.
-/

namespace JacaLib

/-- Structure `MusicRecord` from src/types.ts. -/
structure MusicRecord where
  nr : String
  title : String
  composer : String
  arranged : String
deriving DecidableEq, Repr

/-- Structure `MusicDatabase` (registry entry) from src/types.ts. -/
structure MusicDatabase where
  id : String
  name : String
  associationId : String
  fileName : String
  createdAt : String
  recordCount : Nat
deriving DecidableEq, Repr

/-- Structure `User` from src/types.ts; the optional `associationIds?` field is an
`Option (List String)`. -/
structure User where
  username : String
  passwordHash : String
  role : String
  createdAt : String
  associationIds : Option (List String)
deriving DecidableEq, Repr

/-- Structure `Role` from src/types.ts. -/
structure Role where
  id : String
  name : String
  description : String
deriving DecidableEq, Repr

/-- Structure `Association` from src/types.ts. -/
structure Association where
  id : String
  name : String
  description : String
  createdAt : String
deriving DecidableEq, Repr

/-- The JSON document shapes the application stores at each path. -/
inductive FileData where
  | records (rs : List MusicRecord)
  | databases (dbs : List MusicDatabase)
  | users (us : List User)
  | roles (rs : List Role)
  | associations (as_ : List Association)
deriving DecidableEq, Repr

/-- The remote blob store: a partial map from paths to JSON contents. -/
abbrev Store := String → Option FileData

def Store.empty : Store := fun _ => none

/-- Model of `uploadJson`: overwrite-mode whole-file write. -/
def Store.put (s : Store) (p : String) (v : FileData) : Store :=
  fun q => if q = p then some v else s q

/-- Model of `deleteFile`. -/
def Store.del (s : Store) (p : String) : Store :=
  fun q => if q = p then none else s q

/-- The music-database registry the Dashboard reads from `/databases.json`:
`regData.databases` when that is an array, `[]` otherwise (missing file or
other shape). -/
def registryOf (s : Store) : List MusicDatabase :=
  match s "/databases.json" with
  | some (.databases dbs) => dbs
  | _ => []

/-- The users table read from `/users.json` (`userData?.users || []`). -/
def usersOf (s : Store) : List User :=
  match s "/users.json" with
  | some (.users us) => us
  | _ => []

/-! ### The Dropbox client's path scoping (DropboxService, src/types.ts) -/

/-- Model of JavaScript `String.prototype.toLowerCase` (ASCII case). -/
def jsToLowerCase (s : String) : String := ⟨s.data.map Char.toLower⟩

/-- Model of JavaScript `String.prototype.startsWith`. -/
def jsStartsWith (s pre : String) : Bool := pre.data.isPrefixOf s.data

/-- Model of JavaScript `path.substring(1)`. -/
def jsSubstringFrom1 (s : String) : String := ⟨s.data.drop 1⟩

/-- Model of JavaScript `String.prototype.trim`: strip whitespace from both
ends. -/
def jsTrim (s : String) : String :=
  ⟨((s.data.dropWhile Char.isWhitespace).reverse.dropWhile
      Char.isWhitespace).reverse⟩

/-- Constant `ROOT_FOLDER = /JACA Lib`. -/
def ROOT_FOLDER : String := "/JACA Lib"

/-- Function `DropboxService.getScopedPath` from src/types.ts lines 99-113. -/
def getScopedPath (path : String) : String :=
  if path = "" then ROOT_FOLDER
  else
    let lowerPath := jsToLowerCase path
    let lowerRoot := jsToLowerCase ROOT_FOLDER
    if lowerPath = lowerRoot || jsStartsWith lowerPath (lowerRoot ++ "/") then path
    else
      let cleanPath := if jsStartsWith path "/" then jsSubstringFrom1 path else path
      if cleanPath = "" then ROOT_FOLDER
      else ROOT_FOLDER ++ "/" ++ cleanPath

/-- Path sent to the storage API by `DropboxService.listFiles`. -/
def listFiles_sentPath (path : String) : String := getScopedPath path

/-- Path sent to the storage API by `DropboxService.fileExists`. -/
def fileExists_sentPath (path : String) : String := getScopedPath path

/-- Path sent to the storage API by `DropboxService.downloadJson`. -/
def downloadJson_sentPath (path : String) : String := getScopedPath path

/-- Path sent to the storage API by `DropboxService.uploadJson`. -/
def uploadJson_sentPath (path : String) : String := getScopedPath path

/-- Path sent to the storage API by `DropboxService.deleteFile`. -/
def deleteFile_sentPath (path : String) : String := getScopedPath path

/-! ### Dashboard music-database handlers (src/components/Dashboard.tsx) -/

/-- The content file name `handleSaveImport` builds:
the string `/music_` ++ fileId ++ `.json`. -/
def musicFileName (fileId : String) : String := "/music_" ++ fileId ++ ".json"

/-- Handler `handleSaveImport` (Dashboard.tsx lines 286-334), from the point where
the spreadsheet rows have been flattened into `allRecords`; spreadsheet
parsing is delegated to the xlsx library and out of scope.  Uploads the
content file, then re-reads the registry and appends the new entry.
Returns the new store and the registry entry written. -/
def handleSaveImport (s : Store) (name associationId : String)
    (allRecords : List MusicRecord) (fileId createdAt : String) :
    Store × MusicDatabase :=
  let fileName := musicFileName fileId
  let s1 := s.put fileName (.records allRecords)
  let newDbEntry : MusicDatabase :=
    { id := fileId, name := name, associationId := associationId,
      fileName := fileName, createdAt := createdAt,
      recordCount := allRecords.length }
  let currentRegistry := registryOf s1
  (s1.put "/databases.json" (.databases (currentRegistry ++ [newDbEntry])),
   newDbEntry)

/-- Handler `handleDeleteDatabase` (Dashboard.tsx lines 336-349).  The inner
`deleteFile` call is wrapped in its own try/catch, so its failure
(`deleteOk = false`) does not stop the registry rewrite. -/
def handleDeleteDatabase (s : Store) (db : MusicDatabase) (deleteOk : Bool) :
    Store :=
  let s1 := if deleteOk then s.del db.fileName else s
  match s1 "/databases.json" with
  | some (.databases dbs) =>
      s1.put "/databases.json"
        (.databases (dbs.filter (fun d => decide (d.id ≠ db.id))))
  | _ => s1

/-- Handler `loadMusicDatabases` (Dashboard.tsx lines 205-218).  `musicDatabases` is
the component state before the load, kept when the registry file is missing
or not an array.  `isGroupAdmin` is `user.role === 'group_admin'`. -/
def loadMusicDatabases (s : Store) (user : User)
    (musicDatabases : List MusicDatabase) : List MusicDatabase :=
  match s "/databases.json" with
  | some (.databases dbs) =>
      if user.role = "group_admin" then dbs
      else
        let myAssocIds := user.associationIds.getD []
        dbs.filter (fun db => decide (db.associationId ∈ myAssocIds))
  | _ => musicDatabases

/-- Handler `loadUsers` (Dashboard.tsx lines 176-194).  `canManageUsers` is
`isGroupAdmin || isAdmin`; the association filter runs for
`isAdmin && !isGroupAdmin`. -/
def loadUsers (s : Store) (user : User) (users : List User) : List User :=
  if ¬(user.role = "group_admin" ∨ user.role = "admin") then users
  else
    match s "/users.json" with
    | some (.users allUsers) =>
        if user.role = "admin" ∧ ¬user.role = "group_admin" then
          let myAssocIds := user.associationIds.getD []
          allUsers.filter (fun u =>
            if u.username = user.username then true
            else if u.role = "group_admin" then false
            else (u.associationIds.getD []).any
              (fun id => decide (id ∈ myAssocIds)))
        else allUsers
    | _ => users

/-- Handler `updateDatabaseRegistryCount` (Dashboard.tsx lines 375-381): rewrites
`/databases.json` from the caller's in-memory `musicDatabases` view with the
one entry's `recordCount` replaced.  Returns the new store and the new
component state. -/
def updateDatabaseRegistryCount (s : Store)
    (musicDatabases : List MusicDatabase) (db : MusicDatabase)
    (newCount : Nat) : Store × List MusicDatabase :=
  let updatedDbs := musicDatabases.map (fun d =>
    if d.id = db.id then { d with recordCount := newCount } else d)
  (s.put "/databases.json" (.databases updatedDbs), updatedDbs)

/-- Handler `handleCreateRecord` (Dashboard.tsx lines 383-394): append the new
record, upload the content file, then update the cached registry count.
Returns (store, musicDatabases state, dbRecords state). -/
def handleCreateRecord (s : Store) (musicDatabases : List MusicDatabase)
    (viewingDatabase : MusicDatabase) (dbRecords : List MusicRecord)
    (newRecordData : MusicRecord) :
    Store × List MusicDatabase × List MusicRecord :=
  let newRecords := dbRecords ++ [newRecordData]
  let s1 := s.put viewingDatabase.fileName (.records newRecords)
  let p := updateDatabaseRegistryCount s1 musicDatabases viewingDatabase
    newRecords.length
  (p.1, p.2, newRecords)

/-- Handler `handleDeleteRecord` (Dashboard.tsx lines 396-407): `splice(index, 1)`
is `List.eraseIdx`. -/
def handleDeleteRecord (s : Store) (musicDatabases : List MusicDatabase)
    (viewingDatabase : MusicDatabase) (dbRecords : List MusicRecord)
    (index : Nat) : Store × List MusicDatabase × List MusicRecord :=
  let newRecords := dbRecords.eraseIdx index
  let s1 := s.put viewingDatabase.fileName (.records newRecords)
  let p := updateDatabaseRegistryCount s1 musicDatabases viewingDatabase
    newRecords.length
  (p.1, p.2, newRecords)

/-! ### Record modals (src/components/Dashboard.tsx, renderAddRecordModal /
renderEditRecordModal) -/

/-- The `existingNrRecord` duplicate-Nr check of `renderAddRecordModal`
(Dashboard.tsx line 605):
`dbRecords.find(r => r.nr === newRecordData.nr && newRecordData.nr !== '')`. -/
def addRecordExistingNr (dbRecords : List MusicRecord)
    (newRecordData : MusicRecord) : Option MusicRecord :=
  dbRecords.find? (fun r =>
    decide (r.nr = newRecordData.nr) && decide (¬newRecordData.nr = ""))

/-- The `duplicateRecord` same-content check of `renderAddRecordModal`
(Dashboard.tsx lines 606-610); its warning banner is shown but it never
disables the submit button. -/
def addRecordDuplicateContent (dbRecords : List MusicRecord)
    (newRecordData : MusicRecord) : Option MusicRecord :=
  dbRecords.find? (fun r =>
    decide (jsToLowerCase (jsTrim r.title)
        = jsToLowerCase (jsTrim newRecordData.title)) &&
    decide (jsToLowerCase (jsTrim r.composer)
        = jsToLowerCase (jsTrim newRecordData.composer)) &&
    decide (jsToLowerCase (jsTrim r.arranged)
        = jsToLowerCase (jsTrim newRecordData.arranged)))

/-- Whether the Add Item submit button is disabled
(`disabled={!!existingNrRecord}`, Dashboard.tsx line 641). -/
def addRecordSubmitDisabled (dbRecords : List MusicRecord)
    (newRecordData : MusicRecord) : Bool :=
  (addRecordExistingNr dbRecords newRecordData).isSome

/-- The `existingNrRecord` check of `renderEditRecordModal`
(Dashboard.tsx lines 652-656): a duplicate Nr at an index other than the one
being edited. -/
def editRecordExistingNr (dbRecords : List MusicRecord)
    (record : MusicRecord) (originalIndex : Nat) : Option MusicRecord :=
  (dbRecords.enum.find? (fun ri =>
    decide (ri.2.nr = record.nr) && decide (¬ri.1 = originalIndex) &&
    decide (¬record.nr = ""))).map (·.2)

/-- Whether the Save Changes submit button of the edit modal is disabled
(`disabled={!!existingNrRecord}`, Dashboard.tsx line 680). -/
def editRecordSubmitDisabled (dbRecords : List MusicRecord)
    (record : MusicRecord) (originalIndex : Nat) : Bool :=
  (editRecordExistingNr dbRecords record originalIndex).isSome

/-! ### User handlers (src/components/Dashboard.tsx) -/

/-- Outcome reported by `handleAddUser`. -/
inductive AddUserResult where
  | added
  | usernameExists
deriving DecidableEq, Repr

/-- Handler `handleAddUser` (Dashboard.tsx lines 483-500).  Downloads
`/users.json`, rejects a duplicate username with an alert and no upload,
otherwise appends the new user and rewrites the whole file.  `hashPassword`
(a single SHA-256 digest call, src/unnamed/part_000) is passed as an
abstract function.  An admin caller's new user gets the caller's own
association ids (`finalAssocIds`). -/
def handleAddUser (s : Store) (caller : User)
    (hashPassword : String → String) (username password role : String)
    (newUserAssocIds : List String) (createdAt : String) :
    Store × AddUserResult :=
  let currentUsers := usersOf s
  if currentUsers.any (fun u => decide (u.username = username)) then
    (s, .usernameExists)
  else
    let hash := hashPassword password
    let finalAssocIds :=
      if caller.role = "admin" ∧ ¬caller.role = "group_admin" then
        caller.associationIds.getD []
      else newUserAssocIds
    let userObj : User :=
      { username := username, passwordHash := hash, role := role,
        createdAt := createdAt, associationIds := some finalAssocIds }
    (s.put "/users.json" (.users (currentUsers ++ [userObj])), .added)

/-- Handler `handleDeleteUser` (Dashboard.tsx lines 502-513): refuses to
delete the caller, otherwise rewrites `/users.json` without the username. -/
def handleDeleteUser (s : Store) (caller : User) (username : String) : Store :=
  if username = caller.username then s
  else
    s.put "/users.json"
      (.users ((usersOf s).filter (fun u => decide (¬u.username = username))))

/-- Handler `handleUpdateUser` (Dashboard.tsx lines 519-537): maps over the
downloaded users, replacing the edited user's hash (when a new password was
typed), role and association ids, and rewrites the whole file. -/
def handleUpdateUser (s : Store) (targetUsername : String)
    (newPassHash : Option String) (editRole : String)
    (editAssocIds : List String) : Store :=
  let updatedUsers := (usersOf s).map (fun u =>
    if u.username = targetUsername then
      { u with
        passwordHash := match newPassHash with
          | some h => h
          | none => u.passwordHash,
        role := editRole, associationIds := some editAssocIds }
    else u)
  s.put "/users.json" (.users updatedUsers)

/-! ### First-run bootstrap (src/App.tsx, initializeDropbox) -/

/-- The three default roles `initializeDropbox` seeds (App.tsx lines
114-118). -/
def defaultRoles : List Role :=
  [{ id := "group_admin", name := "Group Admin", description := "Full system access." },
   { id := "admin", name := "Admin", description := "Local user management." },
   { id := "user", name := "User", description := "Basic access." }]

/-- The default admin user `initializeDropbox` seeds when `/users.json` is
missing (App.tsx lines 124-132). -/
def defaultAdminUser (hashPassword : String → String) (now : String) : User :=
  { username := "admin", passwordHash := hashPassword "admin123",
    role := "group_admin", createdAt := now, associationIds := some [] }

/-- Function `initializeDropbox` (App.tsx lines 101-154), after the token
check: seeds `/roles.json`, `/users.json`, `/associations.json` and
`/databases.json` when each is missing (`fileExists` is modelled as the
store having a value at the path). -/
def initializeDropbox (s : Store) (hashPassword : String → String)
    (now : String) : Store :=
  let s1 := if (s "/roles.json").isSome then s
    else s.put "/roles.json" (.roles defaultRoles)
  let s2 := if (s1 "/users.json").isSome then s1
    else s1.put "/users.json" (.users [defaultAdminUser hashPassword now])
  let s3 := if (s2 "/associations.json").isSome then s2
    else s2.put "/associations.json" (.associations [])
  if (s3 "/databases.json").isSome then s3
  else s3.put "/databases.json" (.databases [])

/-- Stores reachable by the operations that write `/users.json`: the
first-run bootstrap followed by any sequence of add / delete / update user
handler calls. -/
inductive UsersReach : Store → Prop where
  | boot (s : Store) (hashPassword : String → String) (now : String) :
      s "/users.json" = none → UsersReach (initializeDropbox s hashPassword now)
  | add (s : Store) (caller : User) (hashPassword : String → String)
      (username password role : String) (ids : List String) (createdAt : String) :
      UsersReach s →
      UsersReach (handleAddUser s caller hashPassword username password role ids createdAt).1
  | del (s : Store) (caller : User) (username : String) :
      UsersReach s → UsersReach (handleDeleteUser s caller username)
  | upd (s : Store) (target : String) (h : Option String) (role : String)
      (ids : List String) :
      UsersReach s → UsersReach (handleUpdateUser s target h role ids)

/-! ### Invariants -/

/-- Referential consistency between the registry and the content files:
every registry entry points to a path at which a file exists. -/
def RefConsistent (s : Store) : Prop :=
  ∀ db ∈ registryOf s, (s db.fileName).isSome

/-- Case-insensitive confinement under the scoped root: the path, compared
after lowercasing (as Dropbox compares paths), is the root folder or lies
strictly below it. -/
def ConfinedUnderRoot (p : String) : Prop :=
  jsToLowerCase p = jsToLowerCase ROOT_FOLDER ∨
  jsStartsWith (jsToLowerCase p) (jsToLowerCase ROOT_FOLDER ++ "/") = true

/-! ### Concrete sample data used by the closed instantiations -/

/-- A sample registry entry. -/
def wDb : MusicDatabase :=
  { id := "db_1", name := "Band", associationId := "A",
    fileName := "/music_db_1.json", createdAt := "t0", recordCount := 1 }

/-- A registry entry of a second association. -/
def wDbOther : MusicDatabase :=
  { id := "db_9", name := "Other", associationId := "B",
    fileName := "/music_db_9.json", createdAt := "t0", recordCount := 1 }

/-- Sample records. -/
def wRec1 : MusicRecord := { nr := "1", title := "Song A", composer := "C", arranged := "" }

def wRec2 : MusicRecord := { nr := "1", title := "Song B", composer := "D", arranged := "" }

def wRecNew : MusicRecord := { nr := "2", title := "Song C", composer := "E", arranged := "" }

/-- A record with a fresh number but the same content as `wRec1`. -/
def wRecContent : MusicRecord := { nr := "3", title := "Song A", composer := "C", arranged := "" }

/-- A sample stored user. -/
def wAlice : User :=
  { username := "alice", passwordHash := "h1", role := "user",
    createdAt := "t0", associationIds := some ["A"] }

/-- A sample store holding two databases of different associations with
their content files, and a users file. -/
def wStore : Store :=
  ((((Store.empty.put "/music_db_1.json" (.records [wRec1])).put
      "/music_db_9.json" (.records [wRec2])).put
      "/databases.json" (.databases [wDb, wDbOther])).put
      "/users.json" (.users [wAlice]))

/-- An admin caller who belongs to association `A` only. -/
def wAdminCaller : User :=
  { username := "bob", passwordHash := "h2", role := "admin",
    createdAt := "t0", associationIds := some ["A"] }

/-! ### Basic store lemmas -/

theorem Store.put_eval (s : Store) (p : String) (v : FileData) (q : String) :
    Store.put s p v q = if q = p then some v else s q := rfl

theorem Store.put_self (s : Store) (p : String) (v : FileData) :
    Store.put s p v p = some v := by
  rw [Store.put_eval, if_pos rfl]

theorem Store.put_other (s : Store) (p : String) (v : FileData) (q : String)
    (h : q ≠ p) : Store.put s p v q = s q := by
  rw [Store.put_eval, if_neg h]

theorem Store.put_isSome (s : Store) (p : String) (v : FileData) (q : String)
    (h : (s q).isSome) : (Store.put s p v q).isSome := by
  rw [Store.put_eval]
  split
  · rfl
  · exact h

theorem registryOf_put_databases (s : Store) (l : List MusicDatabase) :
    registryOf (Store.put s "/databases.json" (.databases l)) = l := by
  rw [registryOf, Store.put_self]

theorem registryOf_put_other (s : Store) (p : String) (v : FileData)
    (h : p ≠ "/databases.json") :
    registryOf (Store.put s p v) = registryOf s := by
  rw [registryOf, registryOf, Store.put_other _ _ _ _ h.symm]

theorem usersOf_put_users (s : Store) (l : List User) :
    usersOf (Store.put s "/users.json" (.users l)) = l := by
  rw [usersOf, Store.put_self]

/-! ### String lemmas for path reasoning -/

theorem jsToLowerCase_append (a b : String) :
    jsToLowerCase (a ++ b) = jsToLowerCase a ++ jsToLowerCase b := by
  apply String.ext
  simp [jsToLowerCase, String.data_append]

theorem isPrefixOf_append_self (l t : List Char) :
    l.isPrefixOf (l ++ t) = true := by
  induction l with
  | nil => simp [List.isPrefixOf]
  | cons a as ih => simp [List.isPrefixOf, ih]

theorem jsStartsWith_append (a b : String) :
    jsStartsWith (a ++ b) a = true := by
  rw [jsStartsWith, String.data_append]
  exact isPrefixOf_append_self _ _

theorem musicFileName_ne_registryPath (fileId : String) :
    musicFileName fileId ≠ "/databases.json" := by
  intro h
  have hd := congrArg String.data h
  rw [musicFileName, String.data_append, String.data_append] at hd
  rw [show ("/music_" : String).data = ['/', 'm', 'u', 's', 'i', 'c', '_'] from rfl] at hd
  simp only [List.cons_append, List.nil_append] at hd
  injection hd with h1 hd
  injection hd with h2 hd
  exact absurd h2 (by decide)

/-! ### Unfolding equations for the handlers -/

theorem handleSaveImport_eq (s : Store) (name associationId : String)
    (allRecords : List MusicRecord) (fileId createdAt : String) :
    handleSaveImport s name associationId allRecords fileId createdAt =
      (Store.put (Store.put s (musicFileName fileId) (.records allRecords))
        "/databases.json"
        (.databases
          (registryOf (Store.put s (musicFileName fileId) (.records allRecords)) ++
            [{ id := fileId, name := name, associationId := associationId,
               fileName := musicFileName fileId, createdAt := createdAt,
               recordCount := allRecords.length }])),
       { id := fileId, name := name, associationId := associationId,
         fileName := musicFileName fileId, createdAt := createdAt,
         recordCount := allRecords.length }) := rfl

theorem handleCreateRecord_eq (s : Store) (mds : List MusicDatabase)
    (vd : MusicDatabase) (recs : List MusicRecord) (newRec : MusicRecord) :
    handleCreateRecord s mds vd recs newRec =
      (Store.put (Store.put s vd.fileName (.records (recs ++ [newRec])))
        "/databases.json"
        (.databases (mds.map (fun d =>
          if d.id = vd.id then { d with recordCount := (recs ++ [newRec]).length }
          else d))),
       mds.map (fun d =>
          if d.id = vd.id then { d with recordCount := (recs ++ [newRec]).length }
          else d),
       recs ++ [newRec]) := rfl

theorem handleDeleteRecord_eq (s : Store) (mds : List MusicDatabase)
    (vd : MusicDatabase) (recs : List MusicRecord) (idx : Nat) :
    handleDeleteRecord s mds vd recs idx =
      (Store.put (Store.put s vd.fileName (.records (recs.eraseIdx idx)))
        "/databases.json"
        (.databases (mds.map (fun d =>
          if d.id = vd.id then { d with recordCount := (recs.eraseIdx idx).length }
          else d))),
       mds.map (fun d =>
          if d.id = vd.id then { d with recordCount := (recs.eraseIdx idx).length }
          else d),
       recs.eraseIdx idx) := rfl

/-! ### Claim theorems -/

/-- C1: Referential consistency between the registry and content files is
preserved by every registry operation.  `handleSaveImport` uploads the
content file before appending the new registry entry, so starting from a
referentially consistent store the store it leaves behind is again
referentially consistent (in particular the new entry points to an existing
file).  After `handleDeleteDatabase db` the registry holds no entry with
`db.id`, whether or not the content-file deletion succeeded. -/
theorem registry_operations_preserve_ref_consistency
    (s : Store) (name associationId : String) (allRecords : List MusicRecord)
    (fileId createdAt : String) (db : MusicDatabase) (deleteOk : Bool) :
    (RefConsistent s →
      RefConsistent
        (handleSaveImport s name associationId allRecords fileId createdAt).1) ∧
    (∀ e ∈ registryOf (handleDeleteDatabase s db deleteOk), e.id ≠ db.id) := by
  constructor
  · intro hrc e he
    rw [handleSaveImport_eq] at he ⊢
    rw [registryOf_put_databases] at he
    rcases List.mem_append.mp he with hcur | hnew
    · by_cases hfn : musicFileName fileId = "/databases.json"
      · rw [hfn] at hcur
        rw [registryOf, Store.put_self] at hcur
        simp at hcur
      · rw [registryOf_put_other _ _ _ hfn] at hcur
        exact Store.put_isSome _ _ _ _ (Store.put_isSome _ _ _ _ (hrc e hcur))
    · rw [List.mem_singleton.mp hnew]
      simp only
      apply Store.put_isSome
      rw [Store.put_self]
      rfl
  · intro e he
    rw [handleDeleteDatabase] at he
    split at he
    · rw [registryOf_put_databases] at he
      have := List.of_mem_filter he
      simpa using this
    · rename_i hnotdb
      rw [registryOf] at he
      split at he
      · rename_i heq
        exact absurd heq (hnotdb _)
      · simp at he

/-- Closed instantiation of `registry_operations_preserve_ref_consistency`
on a concrete two-database store. -/
theorem registry_operations_preserve_ref_consistency_witness :
    RefConsistent wStore ∧
    RefConsistent (handleSaveImport wStore "Choir" "A" [] "db_2" "t2").1 ∧
    ∀ e ∈ registryOf (handleDeleteDatabase wStore wDb false), e.id ≠ wDb.id :=
  ⟨by unfold RefConsistent; decide,
   (registry_operations_preserve_ref_consistency wStore "Choir" "A" [] "db_2"
      "t2" wDb false).1 (by unfold RefConsistent; decide),
   (registry_operations_preserve_ref_consistency wStore "Choir" "A" [] "db_2"
      "t2" wDb false).2⟩

/-- C2: After each record mutation on an open music database
(`handleCreateRecord`, `handleDeleteRecord`, and the initial
`handleSaveImport`), the mutated database's registry entry caches a
`recordCount` equal to the length of the records array written to its
content file.  For create/delete the open database `vd` is assumed to be
the unique entry with its id in the caller's view, and its content file is
not the registry file itself (in the application, content files are always
named `/music_<id>.json`). -/
theorem recordCount_matches_content_file
    (s : Store) (mds : List MusicDatabase) (vd : MusicDatabase)
    (recs allRecords : List MusicRecord) (newRec : MusicRecord) (idx : Nat)
    (name assoc fileId createdAt : String)
    (hmem : vd ∈ mds)
    (huniq : ∀ d ∈ mds, d.id = vd.id → d = vd)
    (hfn : vd.fileName ≠ "/databases.json") :
    ({ vd with recordCount := (recs ++ [newRec]).length } ∈
        registryOf (handleCreateRecord s mds vd recs newRec).1 ∧
      ∀ e ∈ registryOf (handleCreateRecord s mds vd recs newRec).1,
      e.id = vd.id →
        e.recordCount = (recs ++ [newRec]).length ∧
        (handleCreateRecord s mds vd recs newRec).1 e.fileName =
          some (.records (recs ++ [newRec]))) ∧
    ({ vd with recordCount := (recs.eraseIdx idx).length } ∈
        registryOf (handleDeleteRecord s mds vd recs idx).1 ∧
      ∀ e ∈ registryOf (handleDeleteRecord s mds vd recs idx).1,
      e.id = vd.id →
        e.recordCount = (recs.eraseIdx idx).length ∧
        (handleDeleteRecord s mds vd recs idx).1 e.fileName =
          some (.records (recs.eraseIdx idx))) ∧
    ((handleSaveImport s name assoc allRecords fileId createdAt).2.recordCount
        = allRecords.length ∧
      (handleSaveImport s name assoc allRecords fileId createdAt).2 ∈
        registryOf (handleSaveImport s name assoc allRecords fileId createdAt).1 ∧
      (handleSaveImport s name assoc allRecords fileId createdAt).1
          (handleSaveImport s name assoc allRecords fileId createdAt).2.fileName
        = some (.records allRecords)) := by
  refine ⟨⟨?_, ?_⟩, ⟨?_, ?_⟩, ?_, ?_, ?_⟩
  · rw [handleCreateRecord_eq, registryOf_put_databases]
    exact List.mem_map.mpr ⟨vd, hmem, by rw [if_pos rfl]⟩
  · intro e he hid
    rw [handleCreateRecord_eq] at he ⊢
    rw [registryOf_put_databases] at he
    rcases List.mem_map.mp he with ⟨d, hd, hde⟩
    by_cases hdid : d.id = vd.id
    · rw [if_pos hdid] at hde
      have hdv := huniq d hd hdid
      subst hdv
      subst hde
      refine ⟨rfl, ?_⟩
      simp only
      rw [Store.put_other _ _ _ _ hfn, Store.put_self]
    · rw [if_neg hdid] at hde
      subst hde
      exact absurd hid hdid
  · rw [handleDeleteRecord_eq, registryOf_put_databases]
    exact List.mem_map.mpr ⟨vd, hmem, by rw [if_pos rfl]⟩
  · intro e he hid
    rw [handleDeleteRecord_eq] at he ⊢
    rw [registryOf_put_databases] at he
    rcases List.mem_map.mp he with ⟨d, hd, hde⟩
    by_cases hdid : d.id = vd.id
    · rw [if_pos hdid] at hde
      have hdv := huniq d hd hdid
      subst hdv
      subst hde
      refine ⟨rfl, ?_⟩
      simp only
      rw [Store.put_other _ _ _ _ hfn, Store.put_self]
    · rw [if_neg hdid] at hde
      subst hde
      exact absurd hid hdid
  · rfl
  · rw [handleSaveImport_eq, registryOf_put_databases]
    exact List.mem_append_right _ (List.mem_singleton.mpr rfl)
  · rw [handleSaveImport_eq]
    simp only
    rw [Store.put_other _ _ _ _ (musicFileName_ne_registryPath fileId),
      Store.put_self]

/-- Closed instantiation of `recordCount_matches_content_file` on the
concrete sample store. -/
theorem recordCount_matches_content_file_witness :
    wDb ∈ [wDb] ∧
    (∀ d ∈ [wDb], d.id = wDb.id → d = wDb) ∧
    wDb.fileName ≠ "/databases.json" ∧
    ({ wDb with recordCount := ([wRec1] ++ [wRecNew]).length } ∈
        registryOf (handleCreateRecord wStore [wDb] wDb [wRec1] wRecNew).1 ∧
      ∀ e ∈ registryOf (handleCreateRecord wStore [wDb] wDb [wRec1] wRecNew).1,
      e.id = wDb.id →
        e.recordCount = ([wRec1] ++ [wRecNew]).length ∧
        (handleCreateRecord wStore [wDb] wDb [wRec1] wRecNew).1 e.fileName =
          some (.records ([wRec1] ++ [wRecNew]))) := by
  refine ⟨by decide, by decide, by decide, ?_⟩
  exact (recordCount_matches_content_file wStore [wDb] wDb [wRec1] [] wRecNew 0
    "Band" "A" "db_2" "t2" (by decide) (by decide) (by decide)).1

/-- C3: evaluation of the code at a failing input.  The store holds two
registry entries, `wDb` of association `A` and `wDbOther` of association
`B`.  The caller `wAdminCaller` is an admin of association `A` only, so
`loadMusicDatabases` sets the in-memory view to `[wDb]`.  Adding a record
to `wDb` then calls `updateDatabaseRegistryCount`, which rewrites
`/databases.json` from that filtered view: the resulting registry is
exactly `[wDb with recordCount := 2]`, and `wDbOther` — whose content file
still exists — has been dropped, contradicting the frame property the
claim states. -/
theorem updateRegistryCount_drops_other_association_entries :
    loadMusicDatabases wStore wAdminCaller [] = [wDb] ∧
    registryOf (handleCreateRecord wStore [wDb] wDb [wRec1] wRecNew).1 =
      [{ wDb with recordCount := 2 }] ∧
    (∀ e ∈ registryOf (handleCreateRecord wStore [wDb] wDb [wRec1] wRecNew).1,
      e.id ≠ wDbOther.id) ∧
    ((handleCreateRecord wStore [wDb] wDb [wRec1] wRecNew).1
        wDbOther.fileName).isSome := by decide

/-- C4: Music-library visibility is derived from role and association
membership: on any stored registry array a `group_admin` sees every entry,
any other caller sees exactly the entries whose `associationId` lies in the
caller's association-id list, and an empty or missing list yields no
databases. -/
theorem loadMusicDatabases_role_filter
    (s : Store) (user : User) (prev dbs : List MusicDatabase)
    (hreg : s "/databases.json" = some (.databases dbs)) :
    (user.role = "group_admin" → loadMusicDatabases s user prev = dbs) ∧
    (user.role ≠ "group_admin" →
      loadMusicDatabases s user prev =
        dbs.filter (fun db =>
          decide (db.associationId ∈ user.associationIds.getD []))) ∧
    (user.role ≠ "group_admin" → user.associationIds.getD [] = [] →
      loadMusicDatabases s user prev = []) := by
  refine ⟨?_, ?_, ?_⟩
  · intro h
    unfold loadMusicDatabases
    simp only [hreg]
    rw [if_pos h]
  · intro h
    unfold loadMusicDatabases
    simp only [hreg]
    rw [if_neg h]
  · intro h hids
    unfold loadMusicDatabases
    simp only [hreg]
    rw [if_neg h]
    simp only [hids]
    simp

/-- Closed instantiation of `loadMusicDatabases_role_filter` on the sample
store: the association-`A` admin sees only `wDb`, and a caller with no
associations sees nothing. -/
theorem loadMusicDatabases_role_filter_witness :
    loadMusicDatabases wStore wAdminCaller [wDbOther] =
      [wDb, wDbOther].filter (fun db =>
        decide (db.associationId ∈ wAdminCaller.associationIds.getD [])) :=
  (loadMusicDatabases_role_filter wStore wAdminCaller [wDbOther] [wDb, wDbOther]
    rfl).2.1 (by decide)

/-- C5: User visibility is derived from role and association membership: a
`group_admin` caller sees every stored user; an `admin` caller sees exactly
themselves plus every stored user who is not a `group_admin` and shares at
least one association id with the caller. -/
theorem loadUsers_role_filter
    (s : Store) (caller : User) (prev allUsers : List User)
    (husers : s "/users.json" = some (.users allUsers)) :
    (caller.role = "group_admin" → loadUsers s caller prev = allUsers) ∧
    (caller.role = "admin" →
      loadUsers s caller prev =
        allUsers.filter (fun u =>
          decide (u.username = caller.username ∨
            (u.role ≠ "group_admin" ∧
              ∃ i ∈ u.associationIds.getD [],
                i ∈ caller.associationIds.getD [])))) := by
  constructor
  · intro h
    unfold loadUsers
    rw [h]
    simp only [husers]
    rw [if_neg (by simp), if_neg (by simp)]
  · intro h
    unfold loadUsers
    rw [h]
    simp only [husers]
    rw [if_neg (by simp), if_pos (by simp)]
    apply List.filter_congr
    intro u _
    by_cases h1 : u.username = caller.username
    · rw [if_pos h1, Bool.eq_iff_iff]
      simp [h1]
    · by_cases h2 : u.role = "group_admin"
      · rw [if_neg h1, if_pos h2, Bool.eq_iff_iff]
        simp [h1, h2]
      · rw [if_neg h1, if_neg h2, Bool.eq_iff_iff]
        simp [List.any_eq_true, h1, h2]

/-- Closed instantiation of `loadUsers_role_filter`: the association-`A`
admin caller sees the filtered users list. -/
theorem loadUsers_role_filter_witness :
    loadUsers wStore wAdminCaller [] =
      [wAlice].filter (fun u =>
        decide (u.username = wAdminCaller.username ∨
          (u.role ≠ "group_admin" ∧
            ∃ i ∈ u.associationIds.getD [],
              i ∈ wAdminCaller.associationIds.getD []))) :=
  (loadUsers_role_filter wStore wAdminCaller [] [wAlice] rfl).2 (by decide)

theorem getScopedPath_confined (path : String) :
    ConfinedUnderRoot (getScopedPath path) := by
  unfold getScopedPath
  split
  · exact Or.inl rfl
  · dsimp only
    split
    · rename_i hcond
      rcases (by simpa using hcond :
          jsToLowerCase path = jsToLowerCase ROOT_FOLDER ∨
            jsStartsWith (jsToLowerCase path) (jsToLowerCase ROOT_FOLDER ++ "/")
              = true) with hc | hc
      · exact Or.inl hc
      · exact Or.inr hc
    · split
      · split
        · exact Or.inl rfl
        · right
          rw [jsToLowerCase_append, jsToLowerCase_append,
            show jsToLowerCase "/" = "/" from by decide]
          exact jsStartsWith_append _ _
      · right
        rw [jsToLowerCase_append, jsToLowerCase_append,
          show jsToLowerCase "/" = "/" from by decide]
        exact jsStartsWith_append _ _

/-- C6 counterexample: the claim that every path sent to the storage API
equals the root `/JACA Lib` or starts with `/JACA Lib/` (case-sensitively)
fails: a path already below the root in different letter case, here
`/jaca lib/x`, is passed through unchanged by `getScopedPath`, and the
result neither equals the root nor starts with the root prefix followed by
`/`. -/
theorem sentPath_case_sensitivity_counterexample :
    uploadJson_sentPath "/jaca lib/x" = "/jaca lib/x" ∧
    ¬(uploadJson_sentPath "/jaca lib/x" = ROOT_FOLDER ∨
      jsStartsWith (uploadJson_sentPath "/jaca lib/x") (ROOT_FOLDER ++ "/")
        = true) := by
  decide

/-- C6 (amended): every remote file client operation accesses only paths
confined under the scoped root `/JACA Lib` up to letter case (the case the
code deliberately ignores, matching the storage provider's case-insensitive
paths): for every path argument, the path each of `listFiles`,
`fileExists`, `downloadJson`, `uploadJson` and `deleteFile` sends to the
storage API equals the root or extends the root prefix followed by `/`,
compared after lowercasing. -/
theorem sentPaths_confined_case_insensitive (path : String) :
    ConfinedUnderRoot (listFiles_sentPath path) ∧
    ConfinedUnderRoot (fileExists_sentPath path) ∧
    ConfinedUnderRoot (downloadJson_sentPath path) ∧
    ConfinedUnderRoot (uploadJson_sentPath path) ∧
    ConfinedUnderRoot (deleteFile_sentPath path) :=
  ⟨getScopedPath_confined path, getScopedPath_confined path,
   getScopedPath_confined path, getScopedPath_confined path,
   getScopedPath_confined path⟩

theorem condPut_other (s : Store) (p : String) (v : FileData) (q : String)
    (h : q ≠ p) :
    (if (s p).isSome then s else Store.put s p v) q = s q := by
  split
  · rfl
  · exact Store.put_other _ _ _ _ h

theorem condPut_self_none (s : Store) (p : String) (v : FileData)
    (h : s p = none) :
    (if (s p).isSome then s else Store.put s p v) p = some v := by
  rw [h]
  simp only [Option.isSome_none, Bool.false_eq_true, if_false]
  exact Store.put_self _ _ _

theorem condPut_keeps (s : Store) (p' : String) (v' : FileData)
    (p : String) (v : FileData) (h : s p = some v) :
    (if (s p').isSome then s else Store.put s p' v') p = some v := by
  by_cases hq : p = p'
  · subst hq
    rw [h]
    exact h
  · split
    · exact h
    · rw [Store.put_other _ _ _ _ hq]
      exact h

theorem initializeDropbox_users_missing (s : Store)
    (hashPassword : String → String) (now : String)
    (h : s "/users.json" = none) :
    (initializeDropbox s hashPassword now) "/users.json" =
      some (.users [defaultAdminUser hashPassword now]) := by
  have h1 : (if (s "/roles.json").isSome then s
      else Store.put s "/roles.json" (.roles defaultRoles)) "/users.json"
      = none := by
    rw [condPut_other _ _ _ _ (by decide)]
    exact h
  unfold initializeDropbox
  rw [condPut_other _ "/databases.json" _ _ (by decide),
    condPut_other _ "/associations.json" _ _ (by decide),
    condPut_self_none _ _ _ h1]

theorem initializeDropbox_roles_missing (s : Store)
    (hashPassword : String → String) (now : String)
    (h : s "/roles.json" = none) :
    (initializeDropbox s hashPassword now) "/roles.json" =
      some (.roles defaultRoles) := by
  unfold initializeDropbox
  rw [condPut_other _ "/databases.json" _ _ (by decide),
    condPut_other _ "/associations.json" _ _ (by decide),
    condPut_other _ "/users.json" _ _ (by decide),
    condPut_self_none _ _ _ h]

theorem initializeDropbox_keeps (s : Store)
    (hashPassword : String → String) (now : String) (p : String)
    (v : FileData) (h : s p = some v) :
    (initializeDropbox s hashPassword now) p = some v := by
  unfold initializeDropbox
  exact condPut_keeps _ _ _ _ _
    (condPut_keeps _ _ _ _ _ (condPut_keeps _ _ _ _ _ (condPut_keeps _ _ _ _ _ h)))

/-- C7: Username is a unique key.  `handleAddUser` called with a username
already present in the stored users array performs no upload at all (the
store, in particular the users file, is unchanged) and reports the error
`usernameExists`; consequently every users file reachable by the bootstrap
followed by any sequence of add/delete/update user operations has pairwise
distinct usernames. -/
theorem username_unique_key
    (s : Store) (caller : User) (hashPassword : String → String)
    (username password role : String) (ids : List String)
    (createdAt : String) :
    ((∃ u ∈ usersOf s, u.username = username) →
      handleAddUser s caller hashPassword username password role ids createdAt
        = (s, .usernameExists)) ∧
    (UsersReach s → ((usersOf s).map User.username).Nodup) := by
  constructor
  · rintro ⟨u, hu, huname⟩
    unfold handleAddUser
    rw [if_pos (List.any_eq_true.mpr ⟨u, hu, decide_eq_true huname⟩)]
  · intro hreach
    induction hreach with
    | boot s hp now h =>
        unfold usersOf
        simp only [initializeDropbox_users_missing s hp now h]
        simp
    | add s caller hp username pw role ids cAt hr ih =>
        unfold handleAddUser
        by_cases hdup :
            (usersOf s).any (fun u => decide (u.username = username)) = true
        · rw [if_pos hdup]
          exact ih
        · rw [if_neg hdup]
          dsimp only
          rw [usersOf_put_users, List.map_append]
          rw [List.nodup_append]
          refine ⟨ih, List.nodup_singleton _, ?_⟩
          intro a ha hb
          simp only [List.map_cons, List.map_nil, List.mem_singleton] at hb
          subst hb
          rcases List.mem_map.mp ha with ⟨u, hu, huname⟩
          simp only [List.any_eq_true, decide_eq_true_eq] at hdup
          exact hdup ⟨u, hu, huname⟩
    | del s caller username hr ih =>
        unfold handleDeleteUser
        split
        · exact ih
        · rw [usersOf_put_users]
          exact ih.sublist ((List.filter_sublist _).map _)
    | upd s target hsh role ids hr ih =>
        unfold handleUpdateUser
        rw [usersOf_put_users, List.map_map]
        have hcomp : ∀ u ∈ usersOf s,
            (User.username ∘ fun u =>
              if u.username = target then
                { u with
                  passwordHash := match hsh with
                    | some h => h
                    | none => u.passwordHash,
                  role := role, associationIds := some ids }
              else u) u = User.username u := by
          intro u _
          by_cases h : u.username = target <;> simp [h]
        rw [List.map_congr_left hcomp]
        exact ih

/-- Closed instantiation of `username_unique_key`: adding a second `alice`
to the sample store is rejected without touching the store, and the users
file the bootstrap creates on an empty store has distinct usernames. -/
theorem username_unique_key_witness :
    (∃ u ∈ usersOf wStore, u.username = "alice") ∧
    handleAddUser wStore wAdminCaller (fun _ => "h3") "alice" "pw" "user" []
      "t3" = (wStore, .usernameExists) ∧
    ((usersOf (initializeDropbox Store.empty (fun _ => "h4") "t4")).map
      User.username).Nodup :=
  ⟨by decide,
   (username_unique_key wStore wAdminCaller (fun _ => "h3") "alice" "pw"
      "user" [] "t3").1 (by decide),
   (username_unique_key (initializeDropbox Store.empty (fun _ => "h4") "t4")
      wAdminCaller (fun _ => "h3") "alice" "pw" "user" [] "t3").2
     (UsersReach.boot Store.empty (fun _ => "h4") "t4" rfl)⟩

/-- C8 counterexample: a record whose `nr` equals an existing record's `nr`
CANNOT be added after the duplicate warning is shown: the Add Item submit
button is rendered `disabled={!!existingNrRecord}`, and likewise the edit
modal's Save Changes button.  Here `wRec2` duplicates `wRec1`'s number `1`:
the warning is shown and the submit button is disabled in both modals. -/
theorem duplicate_nr_blocks_counterexample :
    (addRecordExistingNr [wRec1] wRec2).isSome ∧
    addRecordSubmitDisabled [wRec1] wRec2 = true ∧
    editRecordSubmitDisabled [wRec1, wRecNew] { wRecNew with nr := "1" } 1
      = true := by
  decide

/-- C8 (amended): a duplicate record number is warned about AND blocks
submission: the add modal's submit button is disabled exactly when some
existing record carries the (nonempty) new number, and the edit modal's
exactly when a record at another index carries it.  Only the same-content
warning (equal title, composer and arranger) is warn-only: when the content
warning is shown but no duplicate number exists, the submit button stays
enabled. -/
theorem duplicate_nr_blocks_submit
    (dbRecords : List MusicRecord) (newRecordData record : MusicRecord)
    (originalIndex : Nat) :
    (addRecordSubmitDisabled dbRecords newRecordData = true ↔
      ∃ r ∈ dbRecords, r.nr = newRecordData.nr ∧ newRecordData.nr ≠ "") ∧
    (editRecordSubmitDisabled dbRecords record originalIndex = true ↔
      ∃ ri ∈ dbRecords.enum,
        ri.2.nr = record.nr ∧ ri.1 ≠ originalIndex ∧ record.nr ≠ "") ∧
    ((addRecordDuplicateContent dbRecords newRecordData).isSome →
      ¬(∃ r ∈ dbRecords, r.nr = newRecordData.nr ∧ newRecordData.nr ≠ "") →
      addRecordSubmitDisabled dbRecords newRecordData = false) := by
  have hadd : addRecordSubmitDisabled dbRecords newRecordData = true ↔
      ∃ r ∈ dbRecords, r.nr = newRecordData.nr ∧ newRecordData.nr ≠ "" := by
    unfold addRecordSubmitDisabled addRecordExistingNr
    rw [List.find?_isSome]
    simp
  refine ⟨hadd, ?_, ?_⟩
  · unfold editRecordSubmitDisabled editRecordExistingNr
    rw [← Option.map_eq_map, Option.isSome_map, List.find?_isSome]
    simp [and_assoc]
  · intro _ hno
    cases heq : addRecordSubmitDisabled dbRecords newRecordData with
    | false => rfl
    | true => exact absurd (hadd.mp heq) hno

/-- Closed instantiation of `duplicate_nr_blocks_submit`: with the content
warning shown and no duplicate number, the add modal stays enabled. -/
theorem duplicate_nr_blocks_submit_witness :
    (addRecordDuplicateContent [wRec1] wRecContent).isSome ∧
    ¬(∃ r ∈ [wRec1], r.nr = wRecContent.nr ∧ wRecContent.nr ≠ "") ∧
    addRecordSubmitDisabled [wRec1] wRecContent = false :=
  ⟨by decide, by decide,
   (duplicate_nr_blocks_submit [wRec1] wRecContent wRec1 0).2.2 (by decide)
     (by decide)⟩

/-- C9: `handleAddUser` follows the read-modify-write whole-file pattern:
when the new username is not already stored it rewrites `/users.json` in
full as the freshly downloaded array with exactly the new user appended —
every previously stored user is preserved in its original order. -/
theorem addUser_appends_whole_file
    (s : Store) (caller : User) (hashPassword : String → String)
    (username password role : String) (ids : List String)
    (createdAt : String)
    (hnew : ∀ u ∈ usersOf s, u.username ≠ username) :
    (handleAddUser s caller hashPassword username password role ids
        createdAt).2 = .added ∧
    usersOf (handleAddUser s caller hashPassword username password role ids
        createdAt).1
      = usersOf s ++
        [{ username := username, passwordHash := hashPassword password,
           role := role, createdAt := createdAt,
           associationIds := some
             (if caller.role = "admin" ∧ ¬caller.role = "group_admin" then
               caller.associationIds.getD []
             else ids) }] := by
  have hcond :
      ¬((usersOf s).any (fun u => decide (u.username = username)) = true) := by
    intro h
    rcases List.any_eq_true.mp h with ⟨u, hu, hname⟩
    exact hnew u hu (of_decide_eq_true hname)
  constructor
  · unfold handleAddUser
    rw [if_neg hcond]
  · unfold handleAddUser
    rw [if_neg hcond]
    dsimp only
    rw [usersOf_put_users]

/-- Closed instantiation of `addUser_appends_whole_file`: adding `carol` to
the sample store appends her to the stored array. -/
theorem addUser_appends_whole_file_witness :
    (∀ u ∈ usersOf wStore, u.username ≠ "carol") ∧
    usersOf (handleAddUser wStore wAdminCaller (fun _ => "h5") "carol" "pw"
        "user" ["A"] "t5").1
      = usersOf wStore ++
        [{ username := "carol", passwordHash := "h5", role := "user",
           createdAt := "t5",
           associationIds := some
             (if wAdminCaller.role = "admin" ∧
                 ¬wAdminCaller.role = "group_admin" then
               wAdminCaller.associationIds.getD []
             else ["A"]) }] :=
  ⟨by decide,
   (addUser_appends_whole_file wStore wAdminCaller (fun _ => "h5") "carol"
      "pw" "user" ["A"] "t5" (by decide)).2⟩

/-- C10: first-run bootstrap.  When `/users.json` does not exist,
`initializeDropbox` creates it with exactly one user — username `admin`,
role `group_admin`, empty association list, password hash the digest of
`admin123`; when `/roles.json` is missing it creates exactly the three
roles `group_admin`, `admin` and `user`; and any file that already exists
is never overwritten. -/
theorem initializeDropbox_bootstrap
    (s : Store) (hashPassword : String → String) (now : String) :
    (s "/users.json" = none →
      (initializeDropbox s hashPassword now) "/users.json" =
        some (.users [{ username := "admin",
                        passwordHash := hashPassword "admin123",
                        role := "group_admin", createdAt := now,
                        associationIds := some [] }])) ∧
    (s "/roles.json" = none →
      (initializeDropbox s hashPassword now) "/roles.json" =
        some (.roles [{ id := "group_admin", name := "Group Admin",
                        description := "Full system access." },
                      { id := "admin", name := "Admin",
                        description := "Local user management." },
                      { id := "user", name := "User",
                        description := "Basic access." }])) ∧
    (∀ p v, s p = some v →
      (initializeDropbox s hashPassword now) p = some v) :=
  ⟨fun h => initializeDropbox_users_missing s hashPassword now h,
   fun h => initializeDropbox_roles_missing s hashPassword now h,
   fun p v h => initializeDropbox_keeps s hashPassword now p v h⟩

/-- Closed instantiation of `initializeDropbox_bootstrap`: on an empty
store the default admin user is created, and on the sample store the
existing users file is untouched. -/
theorem initializeDropbox_bootstrap_witness :
    (initializeDropbox Store.empty (fun _ => "h6") "t6") "/users.json" =
      some (.users [{ username := "admin", passwordHash := "h6",
                      role := "group_admin", createdAt := "t6",
                      associationIds := some [] }]) ∧
    (initializeDropbox wStore (fun _ => "h6") "t6") "/users.json" =
      some (.users [wAlice]) :=
  ⟨(initializeDropbox_bootstrap Store.empty (fun _ => "h6") "t6").1 rfl,
   (initializeDropbox_bootstrap wStore (fun _ => "h6") "t6").2.2
     "/users.json" (.users [wAlice]) (by decide)⟩

end JacaLib
